import Mathlib

set_option maxHeartbeats 1000000

namespace DevopsChatBI

/-!
Shallow embedding of the devops-chatbi repository.

Part one embeds the chat front end
(src/frontend/src/components/Chat.vue): the reactive state
(`messages`, `newMessage`, `messageId`) and the `sendMessage`
handler.  The asynchronous HTTP call is modelled by splitting
`sendMessage` into the synchronous phase up to the request
(`sendMessagePre`, which also reports the request payload, `none`
when no request is issued) and the continuation that runs when the
request settles (`sendMessage`, parameterised by the request
outcome).

Part two models the multi-agent pipeline described in spec.md
(Safety Gate, Intent Classifier, Orchestrator, Insight
Synthesizer); that code is not part of the repository snapshot, so
those definitions are modelled from the spec and say so in their
doc comments.
-/

/-- Embedding of the TypeScript string method trim: removes leading
and trailing whitespace.  Defined over the character list so that it
evaluates by kernel reduction. -/
def jsTrim (s : String) : String :=
  ⟨((s.data.dropWhile Char.isWhitespace).reverse.dropWhile Char.isWhitespace).reverse⟩

/-- The sender union type of Chat.vue (`'user' | 'bot'`). -/
inductive Sender where
  | user
  | bot
  deriving DecidableEq, Repr

/-- The Message interface of Chat.vue. -/
structure Message where
  id : Nat
  text : String
  sender : Sender
  deriving DecidableEq, Repr

/-- The reactive state of the chat component: the `messages` ref, the
`newMessage` input ref, and the `messageId` counter ref. -/
structure ChatState where
  messages : List Message
  newMessage : String
  messageId : Nat
  deriving DecidableEq, Repr

/-- The initial component state: one greeting message with id 1, an
empty input, and the counter at 2 (Chat.vue lines 11-17). -/
def initChatState : ChatState :=
  { messages := [{ id := 1, text := "Hello! How can I help you today?", sender := Sender.bot }]
  , newMessage := ""
  , messageId := 2 }

/-- Outcome of the axios.post call in sendMessage: either the resolved
response body field `response.data.response`, or a rejection carrying
an arbitrary error value (only logged by the component). -/
inductive RequestOutcome where
  | success (response : String)
  | failure (error : String)
  deriving DecidableEq, Repr

/-- The push pattern used three times in Chat.vue: append a message
whose id is the current counter value and post-increment the counter
(`id: messageId.value++` followed by `messages.value.push`). -/
def pushMsg (s : ChatState) (text : String) (sender : Sender) : ChatState :=
  { s with
    messages := s.messages ++ [{ id := s.messageId, text := text, sender := sender }]
    messageId := s.messageId + 1 }

/-- The constant bot text pushed on a failed request (Chat.vue line 43). -/
def errorText : String := "Sorry, something went wrong. Please try again later."

/-- Synchronous phase of sendMessage up to the HTTP request: the early
return on blank input, the push of the user message, the capture of
`userQuestion`, and the clearing of the input.  The second component
is the request payload, `none` when no request is issued. -/
def sendMessagePre (s : ChatState) : ChatState × Option String :=
  if jsTrim s.newMessage = "" then (s, none)
  else
    let userQuestion := s.newMessage
    let s1 := pushMsg s s.newMessage Sender.user
    ({ s1 with newMessage := "" }, some userQuestion)

/-- One completed run of sendMessage (Chat.vue lines 19-48), given the
outcome of the HTTP request: on success push a bot message with the
response text, on failure push a bot message with the constant
`errorText`. -/
def sendMessage (s : ChatState) (outcome : RequestOutcome) : ChatState :=
  match sendMessagePre s with
  | (s1, none) => s1
  | (s1, some _) =>
    match outcome with
    | RequestOutcome.success resp => pushMsg s1 resp Sender.bot
    | RequestOutcome.failure _ => pushMsg s1 errorText Sender.bot

/-- The bot text appended for a given request outcome. -/
def botReplyText (o : RequestOutcome) : String :=
  match o with
  | RequestOutcome.success resp => resp
  | RequestOutcome.failure _ => errorText

/-- Message ids are strictly increasing along the list. -/
def idsIncreasing : List Message → Bool
  | [] => true
  | [_] => true
  | a :: b :: t => decide (a.id < b.id) && idsIncreasing (b :: t)

/-- The chat id invariant: ids strictly increase in append order and
the counter strictly exceeds every id already in the list. -/
def chatInvB (s : ChatState) : Bool :=
  idsIncreasing s.messages && s.messages.all (fun m => decide (m.id < s.messageId))

/-- Modelled from the spec: a table/column reference as used by the
schema catalog snapshot, the allow-list and CandidateQuery references
(spec sections 3 and 4.3); the pipeline code is absent from the
repository snapshot. -/
structure TableRef where
  table : String
  column : String
  deriving DecidableEq, Repr

/-- Modelled from the spec: the structured rejection reason codes of
the Safety Gate (spec section 4.3). -/
inductive ReasonCode where
  | UNSAFE_STATEMENT
  | SCOPE_VIOLATION
  | INJECTION_RISK
  deriving DecidableEq, Repr

/-- Modelled from the spec: a CandidateQuery (spec section 3): query
text, referenced tables/columns, bound parameters, inline (unbound)
literals found in the text, whether the text is exactly one read-only
projection free of data-modifying, multi-statement or
comment-injection patterns, the optional limit clause, the attempt
number, and the feedback consumed from a prior rejection.  The Query
Synthesizer itself is absent from the snapshot, so the syntactic
features the gate inspects are carried as fields. -/
structure CandidateQuery where
  text : String
  refs : List TableRef
  boundParams : List String
  inlineLiterals : List String
  readOnlySingle : Bool
  limitClause : Option Nat
  attempt : Nat
  feedback : Option ReasonCode
  deriving DecidableEq, Repr

/-- Modelled from the spec: the configuration surface relevant to the
Safety Gate (spec section 6): the table/column allow-list derived from
the schema snapshot, the sensitivity flags, and the default row-limit
ceiling. -/
structure Policy where
  allowList : List TableRef
  sensitiveCols : List TableRef
  defaultRowLimit : Nat
  deriving DecidableEq, Repr

/-- Modelled from the spec: the sanitized query carried by an allowed
SafetyVerdict: the references, the enforced row limit, and the shape
facts the gate established. -/
structure SanitizedQuery where
  refs : List TableRef
  rowLimit : Nat
  readOnlySingle : Bool
  inlineLiterals : List String
  deriving DecidableEq, Repr

/-- Modelled from the spec: a SafetyVerdict (spec section 3): allowed
flag, structured reason code when rejected, sanitized query when
allowed, and the set of columns marked for masking. -/
structure SafetyVerdict where
  allowed : Bool
  reason : Option ReasonCode
  sanitized : Option SanitizedQuery
  maskedColumns : List TableRef
  deriving DecidableEq, Repr

/-- A rejecting verdict with the given reason code. -/
def rejectVerdict (r : ReasonCode) : SafetyVerdict :=
  { allowed := false, reason := some r, sanitized := none, maskedColumns := [] }

/-- The row limit the gate puts on the sanitized query: the candidate
limit capped by the ceiling, or the configured default when the
candidate has no limit clause (spec section 4.3, check 3). -/
def injectedLimit (q : CandidateQuery) (p : Policy) : Nat :=
  match q.limitClause with
  | some l => min l p.defaultRowLimit
  | none => p.defaultRowLimit

/-- Modelled from the spec: the Safety Gate validate (spec section
4.3); the gate implementation is absent from the repository snapshot.
Checks in order: statement shape (reject UNSAFE_STATEMENT), reference
scope against the allow-list (reject SCOPE_VIOLATION), bound size
(non-fatal: inject or cap the row limit), sensitivity (mark masked
columns, never reject), parameterization (reject INJECTION_RISK on
any inline literal). -/
def validate (q : CandidateQuery) (p : Policy) : SafetyVerdict :=
  if !q.readOnlySingle then rejectVerdict ReasonCode.UNSAFE_STATEMENT
  else if !(q.refs.all (fun r => p.allowList.contains r)) then
    rejectVerdict ReasonCode.SCOPE_VIOLATION
  else if !q.inlineLiterals.isEmpty then rejectVerdict ReasonCode.INJECTION_RISK
  else
    { allowed := true
    , reason := none
    , sanitized := some
        { refs := q.refs
        , rowLimit := injectedLimit q p
        , readOnlySingle := q.readOnlySingle
        , inlineLiterals := q.inlineLiterals }
    , maskedColumns := q.refs.filter (fun r => p.sensitiveCols.contains r) }

/-- Modelled from the spec: the Intent categories (spec section 3). -/
inductive IntentCategory where
  | MetricLookup
  | TrendAnalysis
  | Comparison
  | Clarification
  | OutOfScope
  deriving DecidableEq, Repr

/-- Modelled from the spec: an Intent (spec section 3): category and
confidence score in [0,1]; entities are not needed by the claims. -/
structure Intent where
  category : IntentCategory
  confidence : ℚ
  deriving DecidableEq, Repr

/-- Modelled from the spec: the Intent Classifier clamp (spec sections
3 and 4.1); the classifier is absent from the repository snapshot.
The raw classifier output is an argument; confidence below the
configured threshold forces category Clarification regardless of that
output. -/
def classify (rawCategory : IntentCategory) (confidence threshold : ℚ) : Intent :=
  if confidence < threshold then
    { category := IntentCategory.Clarification, confidence := confidence }
  else
    { category := rawCategory, confidence := confidence }

/-- Modelled from the spec: a ResultSet (spec section 3): column
metadata, ordered rows of metric values, truncation flag. -/
structure ResultSet where
  columns : List String
  rows : List (List ℚ)
  truncated : Bool
  deriving DecidableEq, Repr

/-- Modelled from the spec: an Insight (spec section 3): summary text,
highlighted metric values, optional chart specification. -/
structure Insight where
  summary : String
  highlights : List String
  chartSpec : Option String
  deriving DecidableEq, Repr

/-- The explicit no-data statement of an Insight for an empty
ResultSet (spec sections 3 and 4.5). -/
def noDataStatement : String := "No data matched the query."

/-- Derived-ratio text: guarded division that reports a zero
denominator as undefined instead of raising a fault (spec section
4.5). -/
def ratioText (num den : ℚ) : String :=
  if den = 0 then "undefined" else toString (num / den)

/-- Modelled from the spec: the Insight Synthesizer analyze (spec
section 4.5); the synthesizer is absent from the repository snapshot.
An empty ResultSet yields the explicit no-data Insight; otherwise the
summary quantifies the latest value and its ratio to the baseline
(undefined on a zero denominator) and notes truncation; no code path
produces an error value. -/
def analyze (rs : ResultSet) (intent : Intent) : Except String Insight :=
  if rs.rows.isEmpty then
    Except.ok { summary := noDataStatement, highlights := [], chartSpec := none }
  else
    let values := rs.rows.map (fun r => r.headD 0)
    let baseline := values.headD 0
    let latest := values.getLastD 0
    let rText := ratioText latest baseline
    let core := "Latest value " ++ toString latest ++ "; change vs baseline " ++ rText ++ "."
    let summary := if rs.truncated then core ++ " Results were truncated." else core
    Except.ok
      { summary := summary
      , highlights := [rText]
      , chartSpec :=
          if intent.category = IntentCategory.TrendAnalysis then some "trend-line" else none }

/-- Modelled from the spec: the Orchestrator states (spec section 4.4). -/
inductive OrchState where
  | Start
  | ClassifyIntent
  | Synthesize
  | Validate
  | RetrySynthesize
  | Execute
  | Analyze
  | Respond
  | End
  | Clarify
  | Fail
  deriving DecidableEq, Repr

/-- Modelled from the spec: one Execution Adapter call outcome (spec
section 6): rows, a transient (retryable) error, or a permanent
error. -/
inductive ExecOutcome where
  | ok (rs : ResultSet)
  | transientError
  | permanentError
  deriving DecidableEq, Repr

/-- Modelled from the spec: the external collaborators a Turn
consumes, as oracles: the raw classifier output and confidence, the
Query Synthesizer (by attempt number and consumed feedback), and the
Execution Adapter outcomes (by execution attempt). -/
structure TurnEnv where
  rawCategory : IntentCategory
  confidence : ℚ
  synth : Nat → Option ReasonCode → CandidateQuery
  execOutcomes : Nat → ExecOutcome

/-- Modelled from the spec: the configuration surface of the
Orchestrator (spec section 6): confidence threshold, synthesis-retry
limit (default 3), execution-retry limit, and the gate policy. -/
structure OrchestratorConfig where
  threshold : ℚ
  maxAttempts : Nat
  execRetryLimit : Nat
  policy : Policy

/-- Modelled from the spec: the terminal outcome of a Turn (spec
section 6): answered, clarification needed, or failed with the
user-visible message. -/
inductive TurnResult where
  | answered (insight : Insight)
  | clarificationNeeded
  | failed (message : String)
  deriving DecidableEq, Repr

/-- The trace of Orchestrator states a Turn visits together with its
terminal result. -/
structure TurnOutput where
  trace : List OrchState
  result : TurnResult
  deriving DecidableEq, Repr

/-- Modelled from the spec: the masked, generic user-visible failure
message (spec sections 4.4 and 7); it carries no query text and no
internal reason code. -/
def failMessage : String :=
  "Sorry, I could not complete that request. Please try rephrasing your question."

/-- Modelled from the spec: the bounded synthesis-retry loop (spec
sections 4.2, 4.4 and 9): synthesize, validate, and on rejection loop
back with the reason as feedback while the budget lasts; a candidate
reproducing the same rejection reason twice ends the loop early as a
synthesis failure.  Returns the visited states and the approved
sanitized query, none when the turn must fail. -/
def synthLoop (p : Policy) (synth : Nat → Option ReasonCode → CandidateQuery) :
    Nat → Option ReasonCode → Nat → List OrchState × Option SanitizedQuery
  | _, _, 0 => ([], none)
  | attempt, feedback, budget + 1 =>
    let q := synth attempt feedback
    let v := validate q p
    if v.allowed then ([OrchState.Synthesize, OrchState.Validate], v.sanitized)
    else if feedback.isSome && (v.reason == feedback) then
      ([OrchState.Synthesize, OrchState.Validate], none)
    else if budget = 0 then
      ([OrchState.Synthesize, OrchState.Validate], none)
    else
      let rest := synthLoop p synth (attempt + 1) v.reason budget
      (OrchState.Synthesize :: OrchState.Validate :: OrchState.RetrySynthesize :: rest.1, rest.2)

/-- Modelled from the spec: the bounded execution-retry loop (spec
section 4.4): a transient error retries Execute alone while the
budget lasts; a permanent error fails immediately. -/
def execLoop (outcomes : Nat → ExecOutcome) : Nat → Nat → List OrchState × Option ResultSet
  | _, 0 => ([], none)
  | k, budget + 1 =>
    match outcomes k with
    | ExecOutcome.ok rs => ([OrchState.Execute], some rs)
    | ExecOutcome.permanentError => ([OrchState.Execute], none)
    | ExecOutcome.transientError =>
      if budget = 0 then ([OrchState.Execute], none)
      else
        let rest := execLoop outcomes (k + 1) budget
        (OrchState.Execute :: rest.1, rest.2)

/-- Modelled from the spec: the degraded raw tabular echo used when
analysis errors (spec section 7). -/
def rawEcho (rs : ResultSet) : Insight :=
  { summary := "Raw results: " ++ toString rs.rows.length ++ " rows."
  , highlights := []
  , chartSpec := none }

/-- Modelled from the spec: one Turn of the Orchestrator state machine
(spec section 4.4); the orchestrator is absent from the repository
snapshot.  Classify, divert Clarification/OutOfScope intents to
Clarify, run the bounded synthesis-retry loop, execute with bounded
execution retry, analyze (degrading to a raw echo on an analysis
error), and respond; exhausting either budget fails the turn with the
masked generic message. -/
def runTurn (cfg : OrchestratorConfig) (env : TurnEnv) : TurnOutput :=
  let intent := classify env.rawCategory env.confidence cfg.threshold
  let pre := [OrchState.Start, OrchState.ClassifyIntent]
  if intent.category = IntentCategory.Clarification ∨
      intent.category = IntentCategory.OutOfScope then
    { trace := pre ++ [OrchState.Clarify], result := TurnResult.clarificationNeeded }
  else
    let sres := synthLoop cfg.policy env.synth 1 none cfg.maxAttempts
    match sres.2 with
    | none =>
      { trace := pre ++ sres.1 ++ [OrchState.Fail]
      , result := TurnResult.failed failMessage }
    | some _ =>
      let eres := execLoop env.execOutcomes 0 cfg.execRetryLimit
      match eres.2 with
      | none =>
        { trace := pre ++ sres.1 ++ eres.1 ++ [OrchState.Fail]
        , result := TurnResult.failed failMessage }
      | some rs =>
        let insight :=
          match analyze rs intent with
          | Except.ok i => i
          | Except.error _ => rawEcho rs
        { trace := pre ++ sres.1 ++ eres.1 ++
            [OrchState.Analyze, OrchState.Respond, OrchState.End]
        , result := TurnResult.answered insight }

/-- A policy naming the two columns of the sample deployments schema
(spec section 8 scenarios). -/
def basePolicy : Policy :=
  { allowList :=
      [{ table := "deployments", column := "ts" },
       { table := "deployments", column := "status" }]
  , sensitiveCols := []
  , defaultRowLimit := 100 }

/-- A configuration whose confidence threshold is below any sample
confidence, with the default three synthesis attempts. -/
def cfgLowBar : OrchestratorConfig :=
  { threshold := 0, maxAttempts := 3, execRetryLimit := 2, policy := basePolicy }

/-- A configuration whose confidence threshold is above the sample
confidence, for exercising the clarification path. -/
def cfgHighBar : OrchestratorConfig :=
  { threshold := 1, maxAttempts := 3, execRetryLimit := 2, policy := basePolicy }

/-- A well-formed candidate: read-only, in scope, parameterized, and
without a limit clause. -/
def okQuery : CandidateQuery :=
  { text := "SELECT ts, status FROM deployments WHERE ts >= ?"
  , refs := [{ table := "deployments", column := "ts" }]
  , boundParams := ["last_week_start"]
  , inlineLiterals := []
  , readOnlySingle := true
  , limitClause := none
  , attempt := 1
  , feedback := none }

/-- A candidate that is not a single read-only projection. -/
def badQuery : CandidateQuery :=
  { okQuery with
    text := "DELETE FROM deployments"
    readOnlySingle := false }

/-- An environment in which every synthesized candidate is unsafe, so
the synthesis-retry loop can never produce an approved query. -/
def envAllBad : TurnEnv :=
  { rawCategory := IntentCategory.MetricLookup
  , confidence := 0
  , synth := fun _ _ => badQuery
  , execOutcomes := fun _ => ExecOutcome.transientError }

/-- An environment in which synthesis succeeds at once and execution
returns an empty ResultSet. -/
def envEmptyRows : TurnEnv :=
  { rawCategory := IntentCategory.MetricLookup
  , confidence := 0
  , synth := fun _ _ => okQuery
  , execOutcomes := fun _ => ExecOutcome.ok { columns := ["ts"], rows := [], truncated := false } }

lemma idsIncreasing_append_last (l : List Message) (m : Message)
    (h : idsIncreasing l = true) (hlt : ∀ x ∈ l, x.id < m.id) :
    idsIncreasing (l ++ [m]) = true := by
  induction l with
  | nil => rfl
  | cons a t ih =>
    cases t with
    | nil =>
      simp only [List.cons_append, List.nil_append, idsIncreasing,
        Bool.and_eq_true, decide_eq_true_eq]
      exact ⟨hlt a (by simp), trivial⟩
    | cons b t2 =>
      simp only [idsIncreasing, Bool.and_eq_true, decide_eq_true_eq] at h
      have := ih h.2 (fun x hx => hlt x (List.mem_cons_of_mem a hx))
      simp only [List.cons_append, idsIncreasing, Bool.and_eq_true, decide_eq_true_eq]
      exact ⟨h.1, by simpa using this⟩

lemma chatInvB_pushMsg (s : ChatState) (t : String) (sd : Sender)
    (h : chatInvB s = true) : chatInvB (pushMsg s t sd) = true := by
  simp only [chatInvB, Bool.and_eq_true, List.all_eq_true, decide_eq_true_eq] at h
  obtain ⟨h1, h2⟩ := h
  simp only [chatInvB, pushMsg, Bool.and_eq_true, List.all_eq_true, decide_eq_true_eq]
  constructor
  · exact idsIncreasing_append_last _ _ h1 (fun x hx => h2 x hx)
  · intro m hm
    rcases List.mem_append.mp hm with hm | hm
    · exact Nat.lt_succ_of_lt (h2 m hm)
    · simp only [List.mem_singleton] at hm
      subst hm
      exact Nat.lt_succ_self _

lemma chatInvB_newMessage (s : ChatState) (t : String) :
    chatInvB { s with newMessage := t } = chatInvB s := rfl

lemma chatInvB_sendMessage (s : ChatState) (o : RequestOutcome)
    (h : chatInvB s = true) : chatInvB (sendMessage s o) = true := by
  unfold sendMessage sendMessagePre
  by_cases hb : jsTrim s.newMessage = ""
  · simp [hb, h]
  · have hp : chatInvB { pushMsg s s.newMessage Sender.user with newMessage := "" } = true := by
      rw [chatInvB_newMessage]
      exact chatInvB_pushMsg s _ _ h
    cases o with
    | success resp => simpa [hb] using chatInvB_pushMsg _ resp Sender.bot hp
    | failure e => simpa [hb] using chatInvB_pushMsg _ errorText Sender.bot hp

lemma idsIncreasing_pairwise (l : List Message) (h : idsIncreasing l = true) :
    (l.map Message.id).Pairwise (· < ·) := by
  induction l with
  | nil => simp
  | cons a t ih =>
    cases t with
    | nil => simp
    | cons b t2 =>
      simp only [idsIncreasing, Bool.and_eq_true, decide_eq_true_eq] at h
      have hp := ih h.2
      simp only [List.map_cons, List.pairwise_cons] at hp ⊢
      refine ⟨?_, hp⟩
      intro x hx
      simp only [List.mem_cons] at hx
      rcases hx with hx | hx
      · exact hx ▸ h.1
      · exact Nat.lt_trans h.1 (hp.1 x hx)

lemma validate_eq_of_ok (q : CandidateQuery) (p : Policy)
    (h1 : q.readOnlySingle = true)
    (h2 : q.refs.all (fun r => p.allowList.contains r) = true)
    (h3 : q.inlineLiterals = []) :
    validate q p =
      { allowed := true
      , reason := none
      , sanitized := some
          { refs := q.refs
          , rowLimit := injectedLimit q p
          , readOnlySingle := true
          , inlineLiterals := [] }
      , maskedColumns := q.refs.filter (fun r => p.sensitiveCols.contains r) } := by
  unfold validate
  rw [h1, h2, h3]
  rfl

lemma validate_allowed_conditions (q : CandidateQuery) (p : Policy)
    (h : (validate q p).allowed = true) :
    q.readOnlySingle = true ∧
    q.refs.all (fun r => p.allowList.contains r) = true ∧
    q.inlineLiterals = [] := by
  by_cases h1 : q.readOnlySingle = true
  · by_cases h2 : q.refs.all (fun r => p.allowList.contains r) = true
    · by_cases h3 : q.inlineLiterals = []
      · exact ⟨h1, h2, h3⟩
      · exfalso
        have h3' : q.inlineLiterals.isEmpty = false := by
          simpa [List.isEmpty_iff] using h3
        unfold validate at h
        rw [h1, h2, h3'] at h
        exact Bool.false_ne_true h
    · exfalso
      rw [Bool.not_eq_true] at h2
      unfold validate at h
      rw [h1, h2] at h
      exact Bool.false_ne_true h
  · exfalso
    rw [Bool.not_eq_true] at h1
    unfold validate at h
    rw [h1] at h
    exact Bool.false_ne_true h

lemma injectedLimit_le (q : CandidateQuery) (p : Policy) :
    injectedLimit q p ≤ p.defaultRowLimit := by
  unfold injectedLimit
  cases q.limitClause with
  | none => exact Nat.le_refl _
  | some l => exact Nat.min_le_right _ _

lemma synthLoop_count_le (p : Policy) (synth : Nat → Option ReasonCode → CandidateQuery)
    (b : Nat) : ∀ (a : Nat) (f : Option ReasonCode),
    ((synthLoop p synth a f b).1.count OrchState.Synthesize) ≤ b := by
  induction b with
  | zero => intro a f; simp [synthLoop]
  | succ n ih =>
    intro a f
    rw [synthLoop]
    have c2 : ([OrchState.Synthesize, OrchState.Validate]).count OrchState.Synthesize = 1 := rfl
    split
    · dsimp only
      rw [c2]
      omega
    · split
      · dsimp only
        rw [c2]
        omega
      · split
        · dsimp only
          rw [c2]
          omega
        · dsimp only
          have h := ih (a + 1) (validate (synth a f) p).reason
          have e1 : (OrchState.Synthesize == OrchState.Synthesize) = true := rfl
          have e2 : (OrchState.Validate == OrchState.Synthesize) = false := rfl
          have e3 : (OrchState.RetrySynthesize == OrchState.Synthesize) = false := rfl
          simp only [List.count_cons, e1, e2, e3, if_true, Bool.false_eq_true, if_false]
          omega

lemma synthLoop_mem (p : Policy) (synth : Nat → Option ReasonCode → CandidateQuery)
    (b : Nat) : ∀ (a : Nat) (f : Option ReasonCode),
    ∀ x ∈ (synthLoop p synth a f b).1,
      x = OrchState.Synthesize ∨ x = OrchState.Validate ∨ x = OrchState.RetrySynthesize := by
  induction b with
  | zero => intro a f x hx; simp [synthLoop] at hx
  | succ n ih =>
    intro a f x hx
    rw [synthLoop] at hx
    split at hx
    · simp only [List.mem_cons, List.not_mem_nil, or_false] at hx
      tauto
    · split at hx
      · simp only [List.mem_cons, List.not_mem_nil, or_false] at hx
        tauto
      · split at hx
        · simp only [List.mem_cons, List.not_mem_nil, or_false] at hx
          tauto
        · simp only [List.mem_cons] at hx
          rcases hx with hx | hx | hx | hx
          · exact Or.inl hx
          · exact Or.inr (Or.inl hx)
          · exact Or.inr (Or.inr hx)
          · exact ih (a + 1) (validate (synth a f) p).reason x hx

lemma execLoop_mem (outcomes : Nat → ExecOutcome) (b : Nat) : ∀ (k : Nat),
    ∀ x ∈ (execLoop outcomes k b).1, x = OrchState.Execute := by
  induction b with
  | zero => intro k x hx; simp [execLoop] at hx
  | succ n ih =>
    intro k x hx
    rw [execLoop] at hx
    split at hx
    · simp only [List.mem_cons, List.not_mem_nil, or_false] at hx; exact hx
    · simp only [List.mem_cons, List.not_mem_nil, or_false] at hx; exact hx
    · split at hx
      · simp only [List.mem_cons, List.not_mem_nil, or_false] at hx; exact hx
      · simp only [List.mem_cons] at hx
        rcases hx with hx | hx
        · exact hx
        · exact ih (k + 1) x hx

lemma runTurn_clarify (cfg : OrchestratorConfig) (env : TurnEnv)
    (h : (classify env.rawCategory env.confidence cfg.threshold).category
            = IntentCategory.Clarification ∨
        (classify env.rawCategory env.confidence cfg.threshold).category
            = IntentCategory.OutOfScope) :
    runTurn cfg env =
      { trace := [OrchState.Start, OrchState.ClassifyIntent, OrchState.Clarify]
      , result := TurnResult.clarificationNeeded } := by
  unfold runTurn
  rw [if_pos h]
  rfl

lemma runTurn_synthFail (cfg : OrchestratorConfig) (env : TurnEnv) (str : List OrchState)
    (h : ¬((classify env.rawCategory env.confidence cfg.threshold).category
            = IntentCategory.Clarification ∨
        (classify env.rawCategory env.confidence cfg.threshold).category
            = IntentCategory.OutOfScope))
    (hs : synthLoop cfg.policy env.synth 1 none cfg.maxAttempts = (str, none)) :
    runTurn cfg env =
      { trace := [OrchState.Start, OrchState.ClassifyIntent] ++ str ++ [OrchState.Fail]
      , result := TurnResult.failed failMessage } := by
  unfold runTurn
  rw [if_neg h, hs]

lemma runTurn_execFail (cfg : OrchestratorConfig) (env : TurnEnv) (str : List OrchState)
    (sq : SanitizedQuery) (etr : List OrchState)
    (h : ¬((classify env.rawCategory env.confidence cfg.threshold).category
            = IntentCategory.Clarification ∨
        (classify env.rawCategory env.confidence cfg.threshold).category
            = IntentCategory.OutOfScope))
    (hs : synthLoop cfg.policy env.synth 1 none cfg.maxAttempts = (str, some sq))
    (he : execLoop env.execOutcomes 0 cfg.execRetryLimit = (etr, none)) :
    runTurn cfg env =
      { trace := [OrchState.Start, OrchState.ClassifyIntent] ++ str ++ etr ++ [OrchState.Fail]
      , result := TurnResult.failed failMessage } := by
  unfold runTurn
  rw [if_neg h, hs, he]

lemma runTurn_success (cfg : OrchestratorConfig) (env : TurnEnv) (str : List OrchState)
    (sq : SanitizedQuery) (etr : List OrchState) (rs : ResultSet)
    (h : ¬((classify env.rawCategory env.confidence cfg.threshold).category
            = IntentCategory.Clarification ∨
        (classify env.rawCategory env.confidence cfg.threshold).category
            = IntentCategory.OutOfScope))
    (hs : synthLoop cfg.policy env.synth 1 none cfg.maxAttempts = (str, some sq))
    (he : execLoop env.execOutcomes 0 cfg.execRetryLimit = (etr, some rs)) :
    runTurn cfg env =
      { trace := [OrchState.Start, OrchState.ClassifyIntent] ++ str ++ etr ++
          [OrchState.Analyze, OrchState.Respond, OrchState.End]
      , result := TurnResult.answered
          (match analyze rs (classify env.rawCategory env.confidence cfg.threshold) with
           | Except.ok i => i
           | Except.error _ => rawEcho rs) } := by
  unfold runTurn
  rw [if_neg h, hs, he]

lemma analyze_empty (rs : ResultSet) (intent : Intent) (h : rs.rows = []) :
    analyze rs intent =
      Except.ok { summary := noDataStatement, highlights := [], chartSpec := none } := by
  simp [analyze, h]

/-- C8: for every input string whose trimmed value is empty, sendMessage
returns immediately: no HTTP request is made (the payload of the
synchronous phase is none) and the whole component state — messages
list, message-id counter, and input field — is left unchanged. -/
theorem blank_input_is_noop (s : ChatState) (o : RequestOutcome)
    (h : jsTrim s.newMessage = "") :
    sendMessage s o = s ∧ (sendMessagePre s).2 = none := by
  unfold sendMessage sendMessagePre
  simp [h]

/-- Witness for C8 at a concrete whitespace-only input. -/
theorem blank_input_is_noop_witness :
    sendMessage { initChatState with newMessage := "  " } (RequestOutcome.failure "boom")
        = { initChatState with newMessage := "  " } ∧
      (sendMessagePre { initChatState with newMessage := "  " }).2 = none :=
  blank_input_is_noop { initChatState with newMessage := "  " }
    (RequestOutcome.failure "boom") (by decide)

/-- C9: for every input whose trimmed value is non-empty, one completed
sendMessage run appends exactly two messages: first a user message
whose text equals the submitted input, then a bot message whose text
is the server response on success and the constant errorText on
failure; the input field is already cleared in the state at which the
request is issued, and the request payload is the submitted input. -/
theorem send_appends_user_then_bot (s : ChatState) (o : RequestOutcome)
    (h : jsTrim s.newMessage ≠ "") :
    (sendMessage s o).messages =
      s.messages ++
        [{ id := s.messageId, text := s.newMessage, sender := Sender.user },
         { id := s.messageId + 1, text := botReplyText o, sender := Sender.bot }] ∧
    (sendMessagePre s).1.newMessage = "" ∧
    (sendMessagePre s).2 = some s.newMessage := by
  refine ⟨?_, ?_, ?_⟩
  · unfold sendMessage sendMessagePre
    cases o with
    | success resp => simp [h, pushMsg, botReplyText]
    | failure e => simp [h, pushMsg, botReplyText]
  · unfold sendMessagePre
    simp [h]
  · unfold sendMessagePre
    simp [h]

/-- Witness for C9 at a concrete non-blank input and a successful request. -/
theorem send_appends_user_then_bot_witness :
    (sendMessage { initChatState with newMessage := "hello" }
        (RequestOutcome.success "42 deployments last week")).messages =
      { initChatState with newMessage := "hello" }.messages ++
        [{ id := { initChatState with newMessage := "hello" }.messageId,
           text := "hello", sender := Sender.user },
         { id := { initChatState with newMessage := "hello" }.messageId + 1,
           text := botReplyText (RequestOutcome.success "42 deployments last week"),
           sender := Sender.bot }] ∧
    (sendMessagePre { initChatState with newMessage := "hello" }).1.newMessage = "" ∧
    (sendMessagePre { initChatState with newMessage := "hello" }).2 = some "hello" :=
  send_appends_user_then_bot { initChatState with newMessage := "hello" }
    (RequestOutcome.success "42 deployments last week") (by decide)

/-- C10: the id invariant of the chat component.  The initial state has
exactly the greeting with id 1 and the counter at 2; the invariant —
ids strictly increasing in append order with the counter strictly
above every id in the list — holds initially and is preserved by every
sendMessage run; and under the invariant the ids are strictly
increasing, hence pairwise distinct. -/
theorem chat_ids_invariant :
    initChatState.messages.map Message.id = [1] ∧
    initChatState.messageId = 2 ∧
    chatInvB initChatState = true ∧
    (∀ s o, chatInvB s = true → chatInvB (sendMessage s o) = true) ∧
    (∀ s, chatInvB s = true →
      (s.messages.map Message.id).Pairwise (· < ·) ∧
      (s.messages.map Message.id).Pairwise (· ≠ ·)) := by
  refine ⟨rfl, rfl, by decide, chatInvB_sendMessage, ?_⟩
  intro s h
  simp only [chatInvB, Bool.and_eq_true] at h
  have hp := idsIncreasing_pairwise s.messages h.1
  exact ⟨hp, hp.imp Nat.ne_of_lt⟩

/-- Witness for C10: the invariant propagated through a concrete
sendMessage run from the initial state. -/
theorem chat_ids_invariant_witness :
    chatInvB (sendMessage { initChatState with newMessage := "hi" }
      (RequestOutcome.success "ok")) = true :=
  chat_ids_invariant.2.2.2.1 { initChatState with newMessage := "hi" }
    (RequestOutcome.success "ok") (by decide)

/-- C1: for every CandidateQuery on which the Safety Gate validate
returns a verdict with allowed true, the sanitized query is read-only,
row-limited within the configured ceiling, references only
tables/columns of the allow-list, and contains no inline (unbound)
literal values. -/
theorem gate_allowed_invariants (q : CandidateQuery) (p : Policy)
    (h : (validate q p).allowed = true) :
    ∃ sq, (validate q p).sanitized = some sq ∧
      sq.readOnlySingle = true ∧
      sq.rowLimit ≤ p.defaultRowLimit ∧
      (∀ r ∈ sq.refs, r ∈ p.allowList) ∧
      sq.inlineLiterals = [] := by
  obtain ⟨h1, h2, h3⟩ := validate_allowed_conditions q p h
  rw [validate_eq_of_ok q p h1 h2 h3]
  refine ⟨_, rfl, rfl, injectedLimit_le q p, ?_, rfl⟩
  intro r hr
  have hc := List.all_eq_true.mp h2 r hr
  simpa using hc

/-- Witness for C1 at a concrete approved candidate. -/
theorem gate_allowed_invariants_witness :
    ∃ sq, (validate okQuery basePolicy).sanitized = some sq ∧
      sq.readOnlySingle = true ∧
      sq.rowLimit ≤ basePolicy.defaultRowLimit ∧
      (∀ r ∈ sq.refs, r ∈ basePolicy.allowList) ∧
      sq.inlineLiterals = [] :=
  gate_allowed_invariants okQuery basePolicy (by decide)

/-- C2: for every Turn whose confidence is below the configured
threshold, the Intent category is Clarification, the Orchestrator
goes to Clarify without ever entering Synthesize, and the Execution
Adapter (state Execute) is never invoked during that Turn. -/
theorem low_confidence_clarifies (cfg : OrchestratorConfig) (env : TurnEnv)
    (h : env.confidence < cfg.threshold) :
    (classify env.rawCategory env.confidence cfg.threshold).category
        = IntentCategory.Clarification ∧
    (runTurn cfg env).trace
        = [OrchState.Start, OrchState.ClassifyIntent, OrchState.Clarify] ∧
    OrchState.Clarify ∈ (runTurn cfg env).trace ∧
    OrchState.Synthesize ∉ (runTurn cfg env).trace ∧
    OrchState.Execute ∉ (runTurn cfg env).trace := by
  have hc : (classify env.rawCategory env.confidence cfg.threshold).category
      = IntentCategory.Clarification := by
    unfold classify
    rw [if_pos h]
  rw [runTurn_clarify cfg env (Or.inl hc)]
  exact ⟨hc, rfl, by decide, by decide, by decide⟩

/-- Witness for C2 at a concrete below-threshold environment. -/
theorem low_confidence_clarifies_witness :
    (classify envAllBad.rawCategory envAllBad.confidence cfgHighBar.threshold).category
        = IntentCategory.Clarification ∧
    (runTurn cfgHighBar envAllBad).trace
        = [OrchState.Start, OrchState.ClassifyIntent, OrchState.Clarify] ∧
    OrchState.Clarify ∈ (runTurn cfgHighBar envAllBad).trace ∧
    OrchState.Synthesize ∉ (runTurn cfgHighBar envAllBad).trace ∧
    OrchState.Execute ∉ (runTurn cfgHighBar envAllBad).trace :=
  low_confidence_clarifies cfgHighBar envAllBad (by decide)

/-- C3: the synthesis-retry loop of a Turn executes Synthesize at most
the configured maximum number of attempts; when the attempt budget is
exhausted without an approved query, the turn transitions to Fail. -/
theorem synthesis_retry_bounded :
    (∀ cfg env, ((runTurn cfg env).trace.count OrchState.Synthesize) ≤ cfg.maxAttempts) ∧
    (∀ cfg env,
      ¬((classify env.rawCategory env.confidence cfg.threshold).category
          = IntentCategory.Clarification ∨
        (classify env.rawCategory env.confidence cfg.threshold).category
          = IntentCategory.OutOfScope) →
      (synthLoop cfg.policy env.synth 1 none cfg.maxAttempts).2 = none →
      (runTurn cfg env).result = TurnResult.failed failMessage ∧
      OrchState.Fail ∈ (runTurn cfg env).trace) := by
  constructor
  · intro cfg env
    by_cases hcl : ((classify env.rawCategory env.confidence cfg.threshold).category
        = IntentCategory.Clarification ∨
      (classify env.rawCategory env.confidence cfg.threshold).category
        = IntentCategory.OutOfScope)
    · rw [runTurn_clarify cfg env hcl]
      have c0 : ([OrchState.Start, OrchState.ClassifyIntent,
          OrchState.Clarify]).count OrchState.Synthesize = 0 := rfl
      dsimp only
      omega
    · rcases hsp : synthLoop cfg.policy env.synth 1 none cfg.maxAttempts with ⟨str, osq⟩
      have hcount : str.count OrchState.Synthesize ≤ cfg.maxAttempts := by
        have hb := synthLoop_count_le cfg.policy env.synth cfg.maxAttempts 1 none
        rw [hsp] at hb
        exact hb
      have c1 : ([OrchState.Start, OrchState.ClassifyIntent]).count OrchState.Synthesize
          = 0 := rfl
      have cF : ([OrchState.Fail]).count OrchState.Synthesize = 0 := rfl
      cases osq with
      | none =>
        rw [runTurn_synthFail cfg env str hcl hsp]
        dsimp only
        simp only [List.count_append]
        omega
      | some sq =>
        rcases hep : execLoop env.execOutcomes 0 cfg.execRetryLimit with ⟨etr, ors⟩
        have hmemE := execLoop_mem env.execOutcomes cfg.execRetryLimit 0
        rw [hep] at hmemE
        have hetr : etr.count OrchState.Synthesize = 0 := by
          rw [List.count_eq_zero]
          intro hin
          exact absurd (hmemE _ hin) (by decide)
        cases ors with
        | none =>
          rw [runTurn_execFail cfg env str sq etr hcl hsp hep]
          dsimp only
          simp only [List.count_append]
          omega
        | some rs =>
          rw [runTurn_success cfg env str sq etr rs hcl hsp hep]
          have cR : ([OrchState.Analyze, OrchState.Respond,
              OrchState.End]).count OrchState.Synthesize = 0 := rfl
          dsimp only
          simp only [List.count_append]
          omega
  · intro cfg env hcl hs2
    have hs' : synthLoop cfg.policy env.synth 1 none cfg.maxAttempts
        = ((synthLoop cfg.policy env.synth 1 none cfg.maxAttempts).1, none) := by
      rw [← hs2]
    rw [runTurn_synthFail cfg env _ hcl hs']
    exact ⟨rfl, by simp⟩

/-- Witness for C3 at a concrete environment whose candidates are all
rejected. -/
theorem synthesis_retry_bounded_witness :
    ((runTurn cfgLowBar envAllBad).trace.count OrchState.Synthesize) ≤ cfgLowBar.maxAttempts ∧
    ((runTurn cfgLowBar envAllBad).result = TurnResult.failed failMessage ∧
      OrchState.Fail ∈ (runTurn cfgLowBar envAllBad).trace) :=
  ⟨synthesis_retry_bounded.1 cfgLowBar envAllBad,
   synthesis_retry_bounded.2 cfgLowBar envAllBad (by decide) (by decide)⟩

/-- C4: every failure surfaced to the caller is the fixed generic text
independent of the internal error.  In the orchestrator, every failed
result carries exactly the constant failMessage; in the chat front
end, sendMessage produces identical states for any two request
errors, and the appended bot message is the constant errorText. -/
theorem failure_output_masked :
    (∀ cfg env m, (runTurn cfg env).result = TurnResult.failed m → m = failMessage) ∧
    (∀ s e1 e2, sendMessage s (RequestOutcome.failure e1)
        = sendMessage s (RequestOutcome.failure e2)) ∧
    (∀ s e, jsTrim s.newMessage ≠ "" →
      (sendMessage s (RequestOutcome.failure e)).messages =
        s.messages ++
          [{ id := s.messageId, text := s.newMessage, sender := Sender.user },
           { id := s.messageId + 1, text := errorText, sender := Sender.bot }]) := by
  refine ⟨?_, ?_, ?_⟩
  · intro cfg env m h
    by_cases hcl : ((classify env.rawCategory env.confidence cfg.threshold).category
        = IntentCategory.Clarification ∨
      (classify env.rawCategory env.confidence cfg.threshold).category
        = IntentCategory.OutOfScope)
    · rw [runTurn_clarify cfg env hcl] at h
      exact absurd h (by simp)
    · rcases hsp : synthLoop cfg.policy env.synth 1 none cfg.maxAttempts with ⟨str, osq⟩
      cases osq with
      | none =>
        rw [runTurn_synthFail cfg env str hcl hsp] at h
        simp only [TurnResult.failed.injEq] at h
        exact h.symm
      | some sq =>
        rcases hep : execLoop env.execOutcomes 0 cfg.execRetryLimit with ⟨etr, ors⟩
        cases ors with
        | none =>
          rw [runTurn_execFail cfg env str sq etr hcl hsp hep] at h
          simp only [TurnResult.failed.injEq] at h
          exact h.symm
        | some rs =>
          rw [runTurn_success cfg env str sq etr rs hcl hsp hep] at h
          exact absurd h (by simp)
  · intro s e1 e2
    unfold sendMessage
    rcases hp : sendMessagePre s with ⟨s1, op⟩
    cases op <;> rfl
  · intro s e h
    unfold sendMessage sendMessagePre
    simp [h, pushMsg]

/-- Witness for C4: the orchestrator part at a concrete failing turn,
and the front-end part at a concrete non-blank input. -/
theorem failure_output_masked_witness :
    failMessage = failMessage ∧
    (sendMessage { initChatState with newMessage := "q" }
        (RequestOutcome.failure "timeout")).messages =
      { initChatState with newMessage := "q" }.messages ++
        [{ id := { initChatState with newMessage := "q" }.messageId,
           text := "q", sender := Sender.user },
         { id := { initChatState with newMessage := "q" }.messageId + 1,
           text := errorText, sender := Sender.bot }] :=
  ⟨failure_output_masked.1 cfgLowBar envAllBad failMessage (by decide),
   failure_output_masked.2.2 { initChatState with newMessage := "q" } "timeout" (by decide)⟩

/-- C5: an empty ResultSet always yields the non-empty explicit
no-data Insight without a fault, and such a turn reaches Respond,
never Fail. -/
theorem empty_result_no_data :
    (∀ rs intent, rs.rows = [] →
      analyze rs intent =
          Except.ok { summary := noDataStatement, highlights := [], chartSpec := none } ∧
        noDataStatement ≠ "") ∧
    (∀ cfg env str sq etr rs,
      ¬((classify env.rawCategory env.confidence cfg.threshold).category
          = IntentCategory.Clarification ∨
        (classify env.rawCategory env.confidence cfg.threshold).category
          = IntentCategory.OutOfScope) →
      synthLoop cfg.policy env.synth 1 none cfg.maxAttempts = (str, some sq) →
      execLoop env.execOutcomes 0 cfg.execRetryLimit = (etr, some rs) →
      rs.rows = [] →
      (runTurn cfg env).result =
          TurnResult.answered { summary := noDataStatement, highlights := [], chartSpec := none } ∧
        OrchState.Respond ∈ (runTurn cfg env).trace ∧
        OrchState.Fail ∉ (runTurn cfg env).trace) := by
  constructor
  · intro rs intent hrows
    exact ⟨analyze_empty rs intent hrows, by decide⟩
  · intro cfg env str sq etr rs hcl hsp hep hrows
    rw [runTurn_success cfg env str sq etr rs hcl hsp hep]
    have ha := analyze_empty rs (classify env.rawCategory env.confidence cfg.threshold) hrows
    refine ⟨?_, ?_, ?_⟩
    · simp only [ha]
    · simp
    · intro hmem
      have hstr := synthLoop_mem cfg.policy env.synth cfg.maxAttempts 1 none
      rw [hsp] at hstr
      have hetr := execLoop_mem env.execOutcomes cfg.execRetryLimit 0
      rw [hep] at hetr
      rcases List.mem_append.mp hmem with hab | h4
      · rcases List.mem_append.mp hab with hcd | h3
        · rcases List.mem_append.mp hcd with h1 | h2
          · exact absurd h1 (by decide)
          · rcases hstr _ h2 with h | h | h <;> exact OrchState.noConfusion h
        · exact OrchState.noConfusion (hetr _ h3)
      · exact absurd h4 (by decide)

/-- Witness for C5 at a concrete turn returning an empty ResultSet. -/
theorem empty_result_no_data_witness :
    (runTurn cfgLowBar envEmptyRows).result =
        TurnResult.answered { summary := noDataStatement, highlights := [], chartSpec := none } ∧
      OrchState.Respond ∈ (runTurn cfgLowBar envEmptyRows).trace ∧
      OrchState.Fail ∉ (runTurn cfgLowBar envEmptyRows).trace :=
  empty_result_no_data.2 cfgLowBar envEmptyRows
    [OrchState.Synthesize, OrchState.Validate]
    { refs := [{ table := "deployments", column := "ts" }]
    , rowLimit := 100, readOnlySingle := true, inlineLiterals := [] }
    [OrchState.Execute]
    { columns := ["ts"], rows := [], truncated := false }
    (by decide) (by decide) (by decide) rfl

/-- C6: a candidate with no row-limit clause is not rejected on the
bound-size check; when it passes the other checks, the gate approves
it and injects the configured default row limit into the sanitized
query. -/
theorem gate_injects_default_limit (q : CandidateQuery) (p : Policy)
    (h0 : q.limitClause = none) (h1 : q.readOnlySingle = true)
    (h2 : q.refs.all (fun r => p.allowList.contains r) = true)
    (h3 : q.inlineLiterals = []) :
    (validate q p).allowed = true ∧
    (validate q p).sanitized =
      some { refs := q.refs, rowLimit := p.defaultRowLimit
           , readOnlySingle := true, inlineLiterals := [] } := by
  rw [validate_eq_of_ok q p h1 h2 h3]
  refine ⟨rfl, ?_⟩
  unfold injectedLimit
  rw [h0]

/-- Witness for C6 at a concrete limitless candidate. -/
theorem gate_injects_default_limit_witness :
    (validate okQuery basePolicy).allowed = true ∧
    (validate okQuery basePolicy).sanitized =
      some { refs := okQuery.refs, rowLimit := basePolicy.defaultRowLimit
           , readOnlySingle := true, inlineLiterals := [] } :=
  gate_injects_default_limit okQuery basePolicy rfl rfl (by decide) rfl

/-- C7: a derived-ratio computation with a zero denominator is
reported as undefined, and analyze still returns an Insight carrying
that text without raising a fault. -/
theorem zero_denominator_undefined :
    (∀ num : ℚ, ratioText num 0 = "undefined") ∧
    (∀ rs intent, rs.rows ≠ [] →
      (rs.rows.map (fun r => r.headD 0)).headD 0 = 0 →
      ∃ ins, analyze rs intent = Except.ok ins ∧ "undefined" ∈ ins.highlights) := by
  constructor
  · intro num
    unfold ratioText
    rw [if_pos rfl]
  · intro rs intent hne h0
    have hemp : rs.rows.isEmpty = false := by
      simpa [List.isEmpty_iff] using hne
    unfold analyze
    rw [hemp, if_neg Bool.false_ne_true]
    refine ⟨_, rfl, ?_⟩
    show "undefined" ∈ [ratioText ((rs.rows.map (fun r => r.headD 0)).getLastD 0)
        ((rs.rows.map (fun r => r.headD 0)).headD 0)]
    rw [h0]
    unfold ratioText
    rw [if_pos rfl]
    exact List.mem_singleton.mpr rfl

/-- Witness for C7 at a concrete ResultSet whose baseline value is
zero. -/
theorem zero_denominator_undefined_witness :
    ratioText 5 0 = "undefined" ∧
    ∃ ins, analyze { columns := ["v"], rows := [[0], [5]], truncated := false }
          { category := IntentCategory.MetricLookup, confidence := 1 } = Except.ok ins ∧
      "undefined" ∈ ins.highlights :=
  ⟨zero_denominator_undefined.1 5,
   zero_denominator_undefined.2 { columns := ["v"], rows := [[0], [5]], truncated := false }
     { category := IntentCategory.MetricLookup, confidence := 1 } (by decide) (by decide)⟩

end DevopsChatBI
